import Mathlib

/-!
Verification development for the interval-timer application.

The timing core is a worker (the `WORKER_CODE` string in the app component)
holding a mutable state record and reacting to `CONFIGURE`, `INIT_STATE`,
`START`, `PAUSE` and `RESET` messages, plus a once-per-second `tick` loop
driven by `setInterval`.  We embed that worker shallowly: JS numbers become
`Int`, the nullable `timerId` becomes a `Bool` flag, and each `postMessage`
call becomes an element of an emitted-event list carrying a snapshot of the
state at the moment of the call.

The audio service (`src/services/audioService.ts`) is embedded for its
control flow: `AudioContext.resume()` either resolves or rejects, which we
model by a `Bool` oracle per call site, and the `try`/`catch` structure is
embedded with `Except`.
-/

namespace IntervalTimer

/-- State record of the interval worker (`WORKER_CODE`).  `timerId` models
whether the `setInterval` ticking loop is active (`timerId !== null`). -/
structure WorkerState where
  currentIntervalTime : Int
  totalTimeRemaining : Int
  intervalsCompleted : Int
  intervalLength : Int
  totalDuration : Int
  timerId : Bool
deriving DecidableEq, Repr

/-- Initial worker state, from the top of `WORKER_CODE`. -/
def initialState : WorkerState :=
  { currentIntervalTime := 0
    totalTimeRemaining := 0
    intervalsCompleted := 0
    intervalLength := 60
    totalDuration := 20
    timerId := false }

/-- Event types posted by the worker via `self.postMessage`. -/
inductive EventType where
  | TICK
  | COUNTDOWN
  | INTERVAL_END
  | COMPLETED
deriving DecidableEq, Repr

/-- One `postMessage` call: the event type together with the snapshot of the
worker state at the moment of the call (structured clone). -/
structure Emitted where
  type : EventType
  state : WorkerState
deriving DecidableEq, Repr

/-- Check whether an event of the given type occurs in an emission list. -/
def hasEvent (es : List Emitted) (t : EventType) : Bool :=
  es.any fun e => e.type = t

/-- The worker `tick` function.  Returns the post-tick state together with
the list of events posted during the call, in order. -/
def tick (s : WorkerState) : WorkerState × List Emitted :=
  let s1 : WorkerState := { s with totalTimeRemaining := s.totalTimeRemaining - 1 }
  if s1.totalTimeRemaining ≤ 0 then
    let s2 : WorkerState :=
      { s1 with currentIntervalTime := 0, totalTimeRemaining := 0, timerId := false }
    (s2, [{ type := EventType.COMPLETED, state := s2 }])
  else
    let pre : List Emitted :=
      if 0 < s1.currentIntervalTime ∧ s1.currentIntervalTime ≤ 3 then
        [{ type := EventType.COUNTDOWN, state := s1 }]
      else []
    let s2 : WorkerState := { s1 with currentIntervalTime := s1.currentIntervalTime - 1 }
    if s2.currentIntervalTime < 0 then
      let s3 : WorkerState :=
        { s2 with
            currentIntervalTime := s2.intervalLength - 1
            intervalsCompleted := s2.intervalsCompleted + 1 }
      (s3, pre ++ [{ type := EventType.INTERVAL_END, state := s3 }])
    else
      (s2, pre ++ [{ type := EventType.TICK, state := s2 }])

/-- Messages accepted by the worker's `self.onmessage` handler. -/
inductive Msg where
  | CONFIGURE (intervalLength totalDuration : Int)
  | INIT_STATE (intervalLength totalDuration : Int)
  | START
  | PAUSE
  | RESET
deriving DecidableEq, Repr

/-- The worker `self.onmessage` handler.  Returns the new state and the
events posted while handling the message. -/
def onmessage (s : WorkerState) : Msg → WorkerState × List Emitted
  | Msg.CONFIGURE il td =>
      ({ s with intervalLength := il, totalDuration := td }, [])
  | Msg.INIT_STATE il td =>
      ({ s with
          currentIntervalTime := il
          totalTimeRemaining := td * 60
          intervalsCompleted := 0 }, [])
  | Msg.START =>
      if s.timerId then (s, []) else ({ s with timerId := true }, [])
  | Msg.PAUSE =>
      if s.timerId then ({ s with timerId := false }, []) else (s, [])
  | Msg.RESET =>
      let s1 : WorkerState :=
        { s with
            timerId := false
            currentIntervalTime := s.intervalLength
            totalTimeRemaining := s.totalDuration * 60
            intervalsCompleted := 0 }
      (s1, [{ type := EventType.TICK, state := s1 }])

/-- Iterate the ticking loop `n` times, keeping only the state. -/
def tickN (s : WorkerState) : Nat → WorkerState
  | 0 => s
  | n + 1 => (tick (tickN s n)).1

/-- Predicate on messages restricting payloads; `Reachable P` closes the
initial state under message handling (for messages satisfying `P`) and under
ticks of an active loop. -/
inductive Reachable (P : Msg → Prop) : WorkerState → Prop where
  | init : Reachable P initialState
  | msg {s : WorkerState} (m : Msg) (hm : P m) (h : Reachable P s) :
      Reachable P (onmessage s m).1
  | tickStep {s : WorkerState} (h : Reachable P s) (ht : s.timerId = true) :
      Reachable P (tick s).1

/-- Message payloads the host app can actually send: durations are clamped
nonnegative by the settings inputs (`Math.max(0, val)`). -/
def NonnegMsg : Msg → Prop
  | Msg.CONFIGURE _ td => 0 ≤ td
  | Msg.INIT_STATE _ td => 0 ≤ td
  | _ => True

/-- Trivial message predicate: any payload allowed. -/
def AnyMsg : Msg → Prop := fun _ => True

/-- Worker states reachable under the host app's message discipline: the app
always pairs an `INIT_STATE` with a `CONFIGURE` carrying the same payload
(see the settings effect in the app component), standalone `CONFIGURE`
messages repeat the current configuration, and the settings inputs keep the
interval length at least 1 and the duration nonnegative. -/
inductive ReachableApp : WorkerState → Prop where
  | init : ReachableApp initialState
  | reinit {s : WorkerState} (il td : Int) (hil : 1 ≤ il) (htd : 0 ≤ td)
      (h : ReachableApp s) :
      ReachableApp (onmessage (onmessage s (Msg.INIT_STATE il td)).1 (Msg.CONFIGURE il td)).1
  | reconfig {s : WorkerState} (h : ReachableApp s) :
      ReachableApp (onmessage s (Msg.CONFIGURE s.intervalLength s.totalDuration)).1
  | start {s : WorkerState} (h : ReachableApp s) : ReachableApp (onmessage s Msg.START).1
  | pause {s : WorkerState} (h : ReachableApp s) : ReachableApp (onmessage s Msg.PAUSE).1
  | reset {s : WorkerState} (h : ReachableApp s) : ReachableApp (onmessage s Msg.RESET).1
  | tickStep {s : WorkerState} (h : ReachableApp s) (ht : s.timerId = true) :
      ReachableApp (tick s).1

/-- Worker state right after the app prepares and starts a session with
interval length `il` (seconds) and total duration `td` (minutes): the app
posts `INIT_STATE` and `CONFIGURE` with the settings, then `START`. -/
def sessionStart (il td : Int) : WorkerState :=
  (onmessage
    (onmessage
      (onmessage initialState (Msg.INIT_STATE il td)).1
      (Msg.CONFIGURE il td)).1
    Msg.START).1

/-- State of an `AudioContext` as far as the audio service's control flow
observes it. -/
inductive CtxState where
  | suspended
  | running
  | closed
deriving DecidableEq, Repr

/-- The `initCtx` method of `AudioService`: construct a fresh context when
there is none or the existing one is closed.  A freshly constructed context
starts out suspended (pending a resume). -/
def initCtx (c : Option CtxState) : Option CtxState :=
  match c with
  | none => some CtxState.suspended
  | some st => if st = CtxState.closed then some CtxState.suspended else some st

/-- One `audioCtx.resume()` call: the `Bool` oracle says whether the promise
resolves (context becomes running) or rejects (models the thrown error). -/
def resumeCall (outcome : Bool) : Except Unit CtxState :=
  if outcome then Except.ok CtxState.running else Except.error ()

/-- The `ensureContextReady` method of `AudioService`
(`src/services/audioService.ts`).  Input: the current `audioCtx` field and
the outcomes of the (at most two) `resume()` calls.  Output, when no
exception escapes: the new `audioCtx` field, the returned context (`none`
models returning `null`), and the number of `resume()` calls made.  The
`try`/`catch` blocks of the source are embedded by matching on the
`Except` result of each `resumeCall`. -/
def ensureContextReady (c : Option CtxState) (r1 r2 : Bool) :
    Except Unit (Option CtxState × Option CtxState × Nat) :=
  match initCtx c with
  | none => Except.ok (none, none, 0)
  | some st =>
    if st = CtxState.running then Except.ok (some st, some st, 0)
    else
      match resumeCall r1 with
      | Except.ok st1 => Except.ok (some st1, some st1, 1)
      | Except.error _ =>
        match initCtx none with
        | none => Except.ok (none, none, 1)
        | some st2 =>
          match resumeCall r2 with
          | Except.ok st3 => Except.ok (some st3, some st3, 2)
          | Except.error _ => Except.ok (some st2, none, 2)

/-- What a sound-playing operation did. -/
inductive SoundOutcome where
  | webAudio
  | fallbackElement
  | skipped
deriving DecidableEq, Repr

/-- The `playTick` method of `src/services/audioService.ts`: with a `null`
context it returns without playing anything. -/
def playTick (c : Option CtxState) (r1 r2 : Bool) :
    Except Unit (Option CtxState × SoundOutcome) :=
  match ensureContextReady c r1 r2 with
  | Except.error e => Except.error e
  | Except.ok (cField, ret, _) =>
    match ret with
    | none => Except.ok (cField, SoundOutcome.skipped)
    | some _ => Except.ok (cField, SoundOutcome.webAudio)

/-- The `playTick` method of the fallback-capable `AudioService` variant
(`playFallback` in the source): with a `null` context it plays the
`HTMLAudioElement` fallback, whose own play() rejection is swallowed with
`.catch(() => \x7b\x7d)`. -/
def playTickWithFallback (c : Option CtxState) (r1 r2 : Bool) :
    Except Unit (Option CtxState × SoundOutcome) :=
  match ensureContextReady c r1 r2 with
  | Except.error e => Except.error e
  | Except.ok (cField, ret, _) =>
    match ret with
    | none => Except.ok (cField, SoundOutcome.fallbackElement)
    | some _ => Except.ok (cField, SoundOutcome.webAudio)

/-- Concrete running state about to roll over: the interval countdown has
reached 0 with plenty of session time left. -/
def rolloverState : WorkerState :=
  { currentIntervalTime := 0
    totalTimeRemaining := 100
    intervalsCompleted := 0
    intervalLength := 60
    totalDuration := 20
    timerId := true }

/-- Concrete running state whose next tick completes the session while the
interval countdown sits at 2 (inside the warning window `[1,3]`). -/
def finalWarnState : WorkerState :=
  { currentIntervalTime := 2
    totalTimeRemaining := 1
    intervalsCompleted := 5
    intervalLength := 60
    totalDuration := 20
    timerId := true }

-- Sanity checks on concrete inputs.
example : (tick rolloverState).1.currentIntervalTime = 59 := by decide
example : (tick finalWarnState).1.totalTimeRemaining = 0 := by decide
example : hasEvent (tick finalWarnState).2 EventType.COUNTDOWN = false := by decide
example : ((onmessage initialState Msg.RESET).1).currentIntervalTime = 60 := by decide

/-- Helper: along any run whose message payloads carry nonnegative durations,
the worker's `totalTimeRemaining` and `totalDuration` stay nonnegative. -/
theorem nonneg_run_invariant {s : WorkerState} (h : Reachable NonnegMsg s) :
    0 ≤ s.totalTimeRemaining ∧ 0 ≤ s.totalDuration := by
  induction h with
  | init => decide
  | @msg t m hm h ih =>
      cases m with
      | CONFIGURE il td => exact ⟨ih.1, hm⟩
      | INIT_STATE il td =>
          have htd : (0 : Int) ≤ td := hm
          simp only [onmessage]
          exact ⟨by omega, ih.2⟩
      | START =>
          simp only [onmessage]
          split_ifs <;> simpa using ih
      | PAUSE =>
          simp only [onmessage]
          split_ifs <;> simpa using ih
      | RESET =>
          have htd := ih.2
          simp only [onmessage]
          exact ⟨by omega, ih.2⟩
  | @tickStep t h ht ih =>
      simp only [tick]
      split_ifs <;> simp_all <;> omega

/-- C1: a tick whose decrement drives `totalTimeRemaining` to or below zero
clamps both counters to 0, posts exactly one `COMPLETED` event, and clears
the ticking loop; moreover, along any run with nonnegative duration
payloads, every event the worker posts (from `tick` or from a message
handler) carries a nonnegative `totalTimeRemaining`. -/
theorem tick_completion_and_emitted_nonneg (s : WorkerState) :
    (s.totalTimeRemaining - 1 ≤ 0 →
      (tick s).1.totalTimeRemaining = 0 ∧
      (tick s).1.currentIntervalTime = 0 ∧
      (tick s).1.timerId = false ∧
      (tick s).2 = [{ type := EventType.COMPLETED, state := (tick s).1 }]) ∧
    (Reachable NonnegMsg s →
      (∀ e ∈ (tick s).2, 0 ≤ e.state.totalTimeRemaining) ∧
      (∀ m, NonnegMsg m → ∀ e ∈ (onmessage s m).2, 0 ≤ e.state.totalTimeRemaining)) := by
  constructor
  · intro h
    simp only [tick]
    split_ifs
    simp
  · intro hr
    obtain ⟨h0, hd⟩ := nonneg_run_invariant hr
    constructor
    · intro e he
      simp only [tick] at he
      split_ifs at he <;> simp_all <;>
        first
          | omega
          | (rcases he with rfl | rfl <;> simp <;> omega)
    · intro m hm e he
      cases m with
      | CONFIGURE il td => simp [onmessage] at he
      | INIT_STATE il td => simp [onmessage] at he
      | START =>
          simp only [onmessage] at he
          split_ifs at he <;> simp_all
      | PAUSE =>
          simp only [onmessage] at he
          split_ifs at he <;> simp_all
      | RESET =>
          simp only [onmessage, List.mem_singleton] at he
          subst he
          simpa using by omega

/-- Witness for C1 at the initial state (whose `totalTimeRemaining` is 0). -/
theorem tick_completion_and_emitted_nonneg_applied :
    (tick initialState).1.totalTimeRemaining = 0 ∧
    ∀ e ∈ (tick initialState).2, 0 ≤ e.state.totalTimeRemaining :=
  ⟨((tick_completion_and_emitted_nonneg initialState).1 (by decide)).1,
   ((tick_completion_and_emitted_nonneg initialState).2 Reachable.init).1⟩

/-- C2 fails as stated: `INIT_STATE` sets `totalTimeRemaining` from its
payload but leaves `totalDuration` untouched, and the app posts `INIT_STATE`
with the new duration before the matching `CONFIGURE`; so one `INIT_STATE`
with duration 30 reaching the default-configured worker (`totalDuration`
20) leaves `totalTimeRemaining = 1800 > 20 * 60 = 1200`, outside
`[0, totalDuration * 60]`. -/
theorem total_time_bound_counterexample :
    Reachable NonnegMsg ((onmessage initialState (Msg.INIT_STATE 60 30)).1) ∧
    ¬ (((onmessage initialState (Msg.INIT_STATE 60 30)).1).totalTimeRemaining ≤
        ((onmessage initialState (Msg.INIT_STATE 60 30)).1).totalDuration * 60) :=
  ⟨Reachable.msg (Msg.INIT_STATE 60 30) (show (0 : Int) ≤ 30 by decide)
      Reachable.init, by decide⟩

/-- C2 amended: a tick decrements `totalTimeRemaining` by exactly one,
clamped at zero, and never increases it; `tick` and `RESET` keep
`totalTimeRemaining` inside `[0, totalDuration * 60]`; `INIT_STATE` alone
sets `totalTimeRemaining` to exactly its payload duration times 60 (which
can exceed the still-configured `totalDuration * 60`), and the bound is
restored as soon as the `CONFIGURE` the app pairs with it arrives. -/
theorem total_time_clamped_decrement (s : WorkerState) (il td : Int) :
    ((tick s).1.totalTimeRemaining = max (s.totalTimeRemaining - 1) 0) ∧
    (0 ≤ s.totalTimeRemaining →
      (tick s).1.totalTimeRemaining ≤ s.totalTimeRemaining) ∧
    (0 ≤ s.totalTimeRemaining ∧ s.totalTimeRemaining ≤ s.totalDuration * 60 →
      0 ≤ (tick s).1.totalTimeRemaining ∧
      (tick s).1.totalTimeRemaining ≤ (tick s).1.totalDuration * 60) ∧
    (((onmessage s (Msg.INIT_STATE il td)).1).totalTimeRemaining = td * 60) ∧
    (0 ≤ td →
      0 ≤ ((onmessage (onmessage s (Msg.INIT_STATE il td)).1
              (Msg.CONFIGURE il td)).1).totalTimeRemaining ∧
      ((onmessage (onmessage s (Msg.INIT_STATE il td)).1
          (Msg.CONFIGURE il td)).1).totalTimeRemaining ≤
        ((onmessage (onmessage s (Msg.INIT_STATE il td)).1
            (Msg.CONFIGURE il td)).1).totalDuration * 60) ∧
    (0 ≤ s.totalDuration →
      0 ≤ ((onmessage s Msg.RESET).1).totalTimeRemaining ∧
      ((onmessage s Msg.RESET).1).totalTimeRemaining ≤
        ((onmessage s Msg.RESET).1).totalDuration * 60) := by
  refine ⟨?_, ?_, ?_, ?_, ?_, ?_⟩
  · simp only [tick]; split_ifs <;> simp_all <;> omega
  · intro h; simp only [tick]; split_ifs <;> simp_all
  · intro h; simp only [tick]; split_ifs <;> simp_all <;> omega
  · simp [onmessage]
  · intro h; simp only [onmessage]; omega
  · intro h; simp only [onmessage]; omega

/-- Witness for the amended C2, exercising every conjunct: the tick parts at
a concrete running state and the `INIT_STATE`/`CONFIGURE` parts at the
counterexample's own payload (duration 30 on the default-configured
worker). -/
theorem total_time_clamped_decrement_applied :
    (tick rolloverState).1.totalTimeRemaining = max (rolloverState.totalTimeRemaining - 1) 0 ∧
    (tick rolloverState).1.totalTimeRemaining ≤ rolloverState.totalTimeRemaining ∧
    0 ≤ (tick rolloverState).1.totalTimeRemaining ∧
    ((onmessage initialState (Msg.INIT_STATE 60 30)).1).totalTimeRemaining = 30 * 60 ∧
    ((onmessage (onmessage initialState (Msg.INIT_STATE 60 30)).1
        (Msg.CONFIGURE 60 30)).1).totalTimeRemaining ≤
      ((onmessage (onmessage initialState (Msg.INIT_STATE 60 30)).1
          (Msg.CONFIGURE 60 30)).1).totalDuration * 60 ∧
    0 ≤ ((onmessage rolloverState Msg.RESET).1).totalTimeRemaining :=
  ⟨(total_time_clamped_decrement rolloverState 60 20).1,
   (total_time_clamped_decrement rolloverState 60 20).2.1 (by decide),
   ((total_time_clamped_decrement rolloverState 60 20).2.2.1 (by decide)).1,
   (total_time_clamped_decrement initialState 60 30).2.2.2.1,
   ((total_time_clamped_decrement initialState 60 30).2.2.2.2.1 (by decide)).2,
   ((total_time_clamped_decrement rolloverState 60 20).2.2.2.2.2 (by decide)).1⟩

/-- C3 fails as stated: at a concrete rollover tick the interval time is
wrapped to `intervalLength - 1 = 59`, not to the configured interval
length 60. -/
theorem rollover_wrap_counterexample :
    (rolloverState.currentIntervalTime - 1 < 0 ∧
      1 < rolloverState.totalTimeRemaining) ∧
    ¬ (tick rolloverState).1.currentIntervalTime = rolloverState.intervalLength := by
  decide

/-- C3 amended: on a rollover tick (the session does not complete and the
decremented interval time goes below zero), `currentIntervalTime` is wrapped
to the configured interval length minus one. -/
theorem rollover_wraps_to_length_minus_one (s : WorkerState)
    (h1 : 1 < s.totalTimeRemaining) (h2 : s.currentIntervalTime - 1 < 0) :
    (tick s).1.currentIntervalTime = s.intervalLength - 1 := by
  simp only [tick]
  split_ifs <;> simp_all
  omega

/-- Witness for the amended C3 at a concrete rollover state. -/
theorem rollover_wraps_to_length_minus_one_applied :
    (tick rolloverState).1.currentIntervalTime = rolloverState.intervalLength - 1 :=
  rollover_wraps_to_length_minus_one rolloverState (by decide) (by decide)

/-- C4: a tick increments `intervalsCompleted` by one exactly when it posts
an `INTERVAL_END` event, and leaves it unchanged on every other tick,
including the completing tick. -/
theorem intervals_completed_increment (s : WorkerState) :
    (tick s).1.intervalsCompleted =
      s.intervalsCompleted +
        (if hasEvent (tick s).2 EventType.INTERVAL_END then 1 else 0) := by
  simp only [tick, hasEvent]
  split_ifs <;> simp_all

/-- C5 fails as stated: at a concrete completing tick whose pre-decrement
interval time is 2 (inside `[1,3]`), no `COUNTDOWN` event is posted, because
the completion branch returns before the warning check. -/
theorem countdown_window_counterexample :
    (1 ≤ finalWarnState.currentIntervalTime ∧
      finalWarnState.currentIntervalTime ≤ 3) ∧
    hasEvent (tick finalWarnState).2 EventType.COUNTDOWN = false := by
  decide

/-- C5 amended: a tick posts a `COUNTDOWN` event exactly when it does not
complete the session and the pre-decrement interval time lies in `[1,3]`. -/
theorem countdown_emitted_iff (s : WorkerState) :
    hasEvent (tick s).2 EventType.COUNTDOWN = true ↔
      (1 < s.totalTimeRemaining ∧
        1 ≤ s.currentIntervalTime ∧ s.currentIntervalTime ≤ 3) := by
  simp only [tick, hasEvent]
  split_ifs <;> simp_all <;> omega

/-- Helper: the post-tick `totalTimeRemaining` as a closed formula. -/
theorem tick_total (s : WorkerState) :
    (tick s).1.totalTimeRemaining =
      if s.totalTimeRemaining - 1 ≤ 0 then 0 else s.totalTimeRemaining - 1 := by
  simp only [tick]
  split_ifs <;> simp_all

/-- Helper: `tick` never changes the configured interval length. -/
theorem tick_length (s : WorkerState) :
    (tick s).1.intervalLength = s.intervalLength := by
  simp only [tick]
  split_ifs <;> simp

/-- Helper: the post-tick `currentIntervalTime` as a closed formula. -/
theorem tick_current (s : WorkerState) :
    (tick s).1.currentIntervalTime =
      if s.totalTimeRemaining - 1 ≤ 0 then 0
      else if s.currentIntervalTime - 1 < 0 then s.intervalLength - 1
      else s.currentIntervalTime - 1 := by
  simp only [tick]
  split_ifs <;> simp_all

/-- Helper: a tick posts an `INTERVAL_END` event exactly when it does not
complete the session and the interval countdown rolls over. -/
theorem tick_interval_end_iff (s : WorkerState) :
    hasEvent (tick s).2 EventType.INTERVAL_END = true ↔
      (1 < s.totalTimeRemaining ∧ s.currentIntervalTime < 1) := by
  simp only [tick, hasEvent]
  split_ifs <;> simp_all

/-- Helper: under the app's message discipline the interval length stays at
least 1 and `currentIntervalTime` stays inside `[0, intervalLength]`. -/
theorem app_run_invariant {s : WorkerState} (h : ReachableApp s) :
    1 ≤ s.intervalLength ∧ 0 ≤ s.currentIntervalTime ∧
      s.currentIntervalTime ≤ s.intervalLength := by
  induction h with
  | init => decide
  | @reinit t il td hil htd h ih =>
      simp only [onmessage]
      exact ⟨hil, by omega, by omega⟩
  | @reconfig t h ih =>
      simp only [onmessage]
      exact ih
  | @start t h ih =>
      simp only [onmessage]
      split_ifs <;> simpa using ih
  | @pause t h ih =>
      simp only [onmessage]
      split_ifs <;> simpa using ih
  | @reset t h ih =>
      have h1 := ih.1
      simp only [onmessage]
      exact ⟨h1, by omega, by omega⟩
  | @tickStep t h ht ih =>
      simp only [tick]
      split_ifs <;> simp_all <;> omega

/-- C6 fails as stated: the state reached from the initial state by a single
`RESET` message has `currentIntervalTime = intervalLength = 60`, outside the
half-open range `[0, intervalLength)`. -/
theorem current_interval_half_open_counterexample :
    Reachable AnyMsg ((onmessage initialState Msg.RESET).1) ∧
    ¬ (0 ≤ ((onmessage initialState Msg.RESET).1).currentIntervalTime ∧
        ((onmessage initialState Msg.RESET).1).currentIntervalTime <
          ((onmessage initialState Msg.RESET).1).intervalLength) :=
  ⟨Reachable.msg Msg.RESET trivial Reachable.init, by decide⟩

/-- C6 amended: in every worker state reachable under the host app's message
discipline (paired `INIT_STATE`/`CONFIGURE`, interval lengths at least 1,
nonnegative durations), `currentIntervalTime` lies in the closed range
`[0, intervalLength]`. -/
theorem current_interval_in_closed_range (s : WorkerState) (h : ReachableApp s) :
    0 ≤ s.currentIntervalTime ∧ s.currentIntervalTime ≤ s.intervalLength :=
  ⟨(app_run_invariant h).2.1, (app_run_invariant h).2.2⟩

/-- Witness for the amended C6 at the state reached by a `RESET`. -/
theorem current_interval_in_closed_range_applied :
    0 ≤ ((onmessage initialState Msg.RESET).1).currentIntervalTime ∧
    ((onmessage initialState Msg.RESET).1).currentIntervalTime ≤
      ((onmessage initialState Msg.RESET).1).intervalLength :=
  current_interval_in_closed_range _ (ReachableApp.reset ReachableApp.init)

/-- Helper: total time along a fresh session run. -/
theorem session_total (il td : Int) :
    ∀ n : Nat, (n : Int) < td * 60 →
      (tickN (sessionStart il td) n).totalTimeRemaining = td * 60 - n := by
  intro n
  induction n with
  | zero =>
      intro _
      simp [tickN, sessionStart, onmessage, initialState]
  | succ n ih =>
      intro hn
      have hn' : (n : Int) < td * 60 := by omega
      simp only [tickN]
      rw [tick_total, ih hn', if_neg (by omega)]
      push_cast
      ring

/-- Helper: the configured interval length along a fresh session run. -/
theorem session_len (il td : Int) :
    ∀ n : Nat, (tickN (sessionStart il td) n).intervalLength = il := by
  intro n
  induction n with
  | zero => simp [tickN, sessionStart, onmessage, initialState]
  | succ n ih =>
      simp only [tickN]
      rw [tick_length, ih]

/-- Helper: the interval countdown along a fresh session run, in closed
form: it starts at `il` and, from the first tick on, equals
`il - 1 - ((n - 1) mod il)`. -/
theorem session_current (il td : Int) (hil : 1 ≤ il) :
    ∀ n : Nat, (n : Int) < td * 60 →
      (n = 0 ∧ (tickN (sessionStart il td) n).currentIntervalTime = il) ∨
      (1 ≤ n ∧ (tickN (sessionStart il td) n).currentIntervalTime =
          il - 1 - (((n : Int) - 1) % il)) := by
  intro n
  induction n with
  | zero =>
      intro _
      exact Or.inl ⟨rfl, by simp [tickN, sessionStart, onmessage, initialState]⟩
  | succ n ih =>
      intro hn
      have hn' : (n : Int) < td * 60 := by omega
      have hT := session_total il td n hn'
      have hL := session_len il td n
      refine Or.inr ⟨by omega, ?_⟩
      rcases ih hn' with ⟨h0, hc⟩ | ⟨h1, hc⟩
      · subst h0
        simp only [tickN] at hT hL hc ⊢
        rw [tick_current, hT, hL, hc, if_neg (by omega), if_neg (by omega)]
        norm_num
      · simp only [tickN]
        rw [tick_current, hT, hL, hc, if_neg (by omega)]
        have hne : il ≠ 0 := by omega
        have hr0 : (0 : Int) ≤ ((n : Int) - 1) % il := Int.emod_nonneg _ hne
        have hr1 : ((n : Int) - 1) % il < il := Int.emod_lt_of_pos _ (by omega)
        have hdiv := Int.emod_add_ediv ((n : Int) - 1) il
        have hsum : ((n + 1 : Nat) : Int) - 1 =
            (((n : Int) - 1) % il + 1) + il * (((n : Int) - 1) / il) := by
          push_cast
          omega
        have hmod : (((n + 1 : Nat) : Int) - 1) % il =
            (((n : Int) - 1) % il + 1) % il := by
          conv_lhs => rw [hsum]
          rw [Int.add_mul_emod_self_left]
        by_cases hcase : ((n : Int) - 1) % il + 1 < il
        · rw [if_neg (by omega), hmod,
            Int.emod_eq_of_lt (by omega) hcase]
          ring
        · have hil1 : ((n : Int) - 1) % il + 1 = il := by omega
          rw [if_pos (by omega), hmod, hil1, Int.emod_self]
          ring

/-- C8: starting a fresh session with interval length `il ≥ 1` and enough
total time, tick `k` posts an `INTERVAL_END` event exactly when
`k ≥ il + 1` and `il` divides `k - 1`: the first boundary fires on tick
`il + 1` (since `INIT_STATE` sets the countdown to `il`) and each later one
exactly `il` ticks after the previous (since a rollover wraps to
`il - 1`). -/
theorem interval_end_schedule (il td : Int) (hil : 1 ≤ il) (k : Nat)
    (hk : 1 ≤ k) (hkT : (k : Int) < td * 60) :
    (hasEvent (tick (tickN (sessionStart il td) (k - 1))).2
        EventType.INTERVAL_END = true) ↔
      (il + 1 ≤ (k : Int) ∧ ((k : Int) - 1) % il = 0) := by
  have hkk : ((k - 1 : Nat) : Int) = (k : Int) - 1 := by
    rw [Nat.cast_sub hk]
    norm_num
  have hk1 : ((k - 1 : Nat) : Int) < td * 60 := by omega
  rw [tick_interval_end_iff, session_total il td (k - 1) hk1, hkk]
  rcases session_current il td hil (k - 1) hk1 with ⟨h0, hc⟩ | ⟨h1, hc⟩
  · have hk2 : k = 1 := by omega
    subst hk2
    rw [hc]
    constructor
    · rintro ⟨-, habs⟩
      omega
    · rintro ⟨habs, -⟩
      norm_num at habs
      omega
  · rw [hc, hkk]
    have hk2 : 2 ≤ k := by omega
    have hne : il ≠ 0 := by omega
    have hr0 : (0 : Int) ≤ (((k : Int) - 1) - 1) % il := Int.emod_nonneg _ hne
    have hr1 : (((k : Int) - 1) - 1) % il < il := Int.emod_lt_of_pos _ (by omega)
    have hdiv := Int.emod_add_ediv (((k : Int) - 1) - 1) il
    have hq0 : (0 : Int) ≤ (((k : Int) - 1) - 1) / il :=
      Int.ediv_nonneg (by omega) (by omega)
    have hilq : (0 : Int) ≤ il * ((((k : Int) - 1) - 1) / il) :=
      mul_nonneg (by omega) hq0
    have hsum : (k : Int) - 1 =
        ((((k : Int) - 1) - 1) % il + 1) + il * ((((k : Int) - 1) - 1) / il) := by
      omega
    have hmod : ((k : Int) - 1) % il = ((((k : Int) - 1) - 1) % il + 1) % il := by
      conv_lhs => rw [hsum]
      rw [Int.add_mul_emod_self_left]
    constructor
    · rintro ⟨-, hcur⟩
      have hreq : (((k : Int) - 1) - 1) % il = il - 1 := by omega
      have hstep : (((k : Int) - 1) - 1) % il + 1 = il := by omega
      refine ⟨by omega, ?_⟩
      rw [hmod, hstep, Int.emod_self]
    · rintro ⟨hge, hz⟩
      rw [hmod] at hz
      by_cases hlt : (((k : Int) - 1) - 1) % il + 1 < il
      · rw [Int.emod_eq_of_lt (by omega) hlt] at hz
        omega
      · exact ⟨by omega, by omega⟩

/-- Witness for C8: with interval length 2 and a 1-minute session, the
first interval boundary fires on tick 3. -/
theorem interval_end_schedule_applied :
    hasEvent (tick (tickN (sessionStart 2 1) (3 - 1))).2
        EventType.INTERVAL_END = true :=
  (interval_end_schedule 2 1 (by norm_num) 3 (by norm_num) (by norm_num)).mpr
    (by norm_num)

/-- C7: `ensureContextReady` never lets a resume failure escape: whatever
the context and the two resume outcomes, it returns normally; when the
context is not running and the first resume rejects, it recreates the
context and retries exactly once (two resume calls in total), returning the
running context if the retry resolves and `null` if it rejects too; and both
`playTick` variants return normally, skipping or playing the element
fallback when given a `null` context. -/
theorem resume_retry_once_and_swallow (c : Option CtxState) (r1 r2 : Bool) :
    (∃ v, ensureContextReady c r1 r2 = Except.ok v) ∧
    (∀ st, initCtx c = some st → st ≠ CtxState.running → r1 = false →
      (r2 = true →
        ensureContextReady c r1 r2 =
          Except.ok (some CtxState.running, some CtxState.running, 2)) ∧
      (r2 = false →
        ensureContextReady c r1 r2 =
          Except.ok (some CtxState.suspended, none, 2))) ∧
    (∃ w, playTick c r1 r2 = Except.ok w) ∧
    (∃ w, playTickWithFallback c r1 r2 = Except.ok w) ∧
    (∀ cf k, ensureContextReady c r1 r2 = Except.ok (cf, none, k) →
      playTick c r1 r2 = Except.ok (cf, SoundOutcome.skipped) ∧
      playTickWithFallback c r1 r2 = Except.ok (cf, SoundOutcome.fallbackElement)) := by
  rcases c with _ | st
  · cases r1 <;> cases r2 <;>
      simp [ensureContextReady, initCtx, resumeCall, playTick, playTickWithFallback]
  · cases st <;> cases r1 <;> cases r2 <;>
      simp [ensureContextReady, initCtx, resumeCall, playTick, playTickWithFallback]

/-- Witness for C7: a suspended context whose two resume attempts both
reject yields a `null` return, counted two resume calls, and both sound
routines still return normally. -/
theorem resume_retry_once_and_swallow_applied :
    ensureContextReady (some CtxState.suspended) false false =
      Except.ok (some CtxState.suspended, none, 2) ∧
    playTick (some CtxState.suspended) false false =
      Except.ok (some CtxState.suspended, SoundOutcome.skipped) ∧
    playTickWithFallback (some CtxState.suspended) false false =
      Except.ok (some CtxState.suspended, SoundOutcome.fallbackElement) := by
  have h := resume_retry_once_and_swallow (some CtxState.suspended) false false
  have h1 := (h.2.1 CtxState.suspended rfl (by decide) rfl).2 rfl
  exact ⟨h1, (h.2.2.2.2 _ _ h1).1, (h.2.2.2.2 _ _ h1).2⟩

/-- C9: `START` while the ticking loop is active is a no-op, and a second
`START` after any `START` changes nothing. -/
theorem start_idempotent (s : WorkerState) :
    (s.timerId = true → onmessage s Msg.START = (s, [])) ∧
    onmessage (onmessage s Msg.START).1 Msg.START = ((onmessage s Msg.START).1, []) := by
  constructor
  · intro h
    simp [onmessage, h]
  · by_cases h : s.timerId <;> simp [onmessage, h]

/-- Witness for C9 at a concrete state with an active loop. -/
theorem start_idempotent_applied :
    onmessage rolloverState Msg.START = (rolloverState, []) :=
  (start_idempotent rolloverState).1 rfl

/-- C10: `PAUSE` stops the ticking loop, posts nothing, and leaves the three
countdown counters (and the configuration) untouched, so a following `START`
changes only the loop flag. -/
theorem pause_preserves_counters (s : WorkerState) :
    ((onmessage s Msg.PAUSE).1).currentIntervalTime = s.currentIntervalTime ∧
    ((onmessage s Msg.PAUSE).1).totalTimeRemaining = s.totalTimeRemaining ∧
    ((onmessage s Msg.PAUSE).1).intervalsCompleted = s.intervalsCompleted ∧
    ((onmessage s Msg.PAUSE).1).intervalLength = s.intervalLength ∧
    ((onmessage s Msg.PAUSE).1).totalDuration = s.totalDuration ∧
    ((onmessage s Msg.PAUSE).1).timerId = false ∧
    (onmessage s Msg.PAUSE).2 = [] ∧
    (onmessage (onmessage s Msg.PAUSE).1 Msg.START).1 =
      { (onmessage s Msg.PAUSE).1 with timerId := true } := by
  by_cases h : s.timerId <;> simp [onmessage, h]

end IntervalTimer
